import Mathlib

/-!
Verification of KubeFreezer against its specification.

KubeFreezer is an admission gate for Kubernetes workload mutations.  The
repository ships the management web UI (React/TypeScript under
`frontend/src`) together with installer scripts; the backend admission
engine described by the specification is delivered as a container image
and its source is not part of the repository.  This development embeds

* the UI code paths that the claims point at — the API client
  (`services/api.ts`), the auth layer (`services/auth.ts`), the
  exemption-creation form, the template/schedule-creation form and the
  exemption status display (`pages/Login.tsx` bundle) — translated
  directly from the TypeScript; and

* the backend components the claims need but whose code is absent from
  the repository — the exemption store matcher and the policy evaluator —
  modelled from the specification text (each such definition is marked
  `Modelled from the spec:`).

Instants are modelled as integers (minutes for the date/time form,
abstract ticks elsewhere); strings are Lean strings.
-/

namespace KubeFreezer

/-! ## String trimming

JavaScript `String.prototype.trim` removes leading and trailing
whitespace.  The UI calls `.trim()` on API keys and on every text field
of the exemption form. -/

/-- JS `s.trim()`: drop leading and trailing whitespace characters. -/
def jsTrim (s : String) : String :=
  String.mk (List.rdropWhile Char.isWhitespace (s.data.dropWhile Char.isWhitespace))

theorem dropWhile_rdrop_dropWhile (p : Char → Bool) (l : List Char) :
    (List.rdropWhile p (l.dropWhile p)).dropWhile p = List.rdropWhile p (l.dropWhile p) := by
  rw [List.dropWhile_eq_self_iff]
  intro hl
  obtain ⟨t, ht⟩ := List.rdropWhile_prefix p (l.dropWhile p)
  have hlen : 0 < (l.dropWhile p).length := by
    rw [← ht, List.length_append]
    omega
  have e1 : (l.dropWhile p)[0]? = (List.rdropWhile p (l.dropWhile p))[0]? := by
    conv_lhs => rw [← ht]
    rw [List.getElem?_append]
    simp [hl]
  have e2 : (List.rdropWhile p (l.dropWhile p))[0]? =
      some ((List.rdropWhile p (l.dropWhile p)).get ⟨0, hl⟩) := by
    simp [List.getElem?_eq_getElem hl]
  have e3 : (l.dropWhile p)[0]? = some ((l.dropWhile p).get ⟨0, hlen⟩) := by
    simp [List.getElem?_eq_getElem hlen]
  have hv : (List.rdropWhile p (l.dropWhile p)).get ⟨0, hl⟩ = (l.dropWhile p).get ⟨0, hlen⟩ := by
    have h4 := e1.symm.trans e3
    rw [e2] at h4
    exact Option.some.inj h4
  rw [hv]
  exact List.dropWhile_get_zero_not p l hlen

theorem jsTrim_idem (s : String) : jsTrim (jsTrim s) = jsTrim s := by
  unfold jsTrim
  congr 1
  rw [dropWhile_rdrop_dropWhile, List.rdropWhile_idempotent]

/-! ## API client state (`frontend/src/services/api.ts`)

The `KubeFreezerAPI` class keeps one token (mirrored into
`localStorage`; the in-memory field and the stored copy are kept in sync
by `setToken`/`clearToken`, so a single optional string models both). -/

structure ApiState where
  token : Option String
deriving DecidableEq, Repr

/-- `setToken`: store the trimmed token. -/
def setToken (_s : ApiState) (t : String) : ApiState :=
  { token := some (jsTrim t) }

/-- `clearToken`: drop the token. -/
def clearToken (_s : ApiState) : ApiState :=
  { token := none }

/-- `getToken`: returns the stored token trimmed, or `null` when the
stored value is absent or falsy (the empty string). -/
def getTokenModel (s : ApiState) : Option String :=
  match s.token with
  | none => none
  | some t => if t = "" then none else some (jsTrim t)

/-- `isAuthenticated`: `!!this.getToken()` — true iff `getToken` yields a
truthy (non-empty) string. -/
def isAuthenticatedApi (s : ApiState) : Bool :=
  match getTokenModel s with
  | none => false
  | some t => !(t == "")

/-- Outcome of the `fetch` inside `KubeFreezerAPI.request`, by the status
branches the code distinguishes.  Each constructor carries the response
body (or the parsed `detail` field, `none` when body parsing fails). -/
inductive HttpResponse where
  | success (body : String)
  | status401 (body : String)
  | status403 (detail : Option String)
  | statusErr (detail : Option String)
  | networkError
deriving DecidableEq, Repr

/-- `KubeFreezerAPI.request`: the status-code dispatch.  A 401 clears the
token and throws `Authentication required` before reading the body; 403
and other non-OK statuses throw the body's `detail` (with a fallback)
and leave the token alone; a network failure throws `Network error`. -/
def requestStep (s : ApiState) (r : HttpResponse) : ApiState × Except String Unit :=
  match r with
  | HttpResponse.success _ => (s, Except.ok ())
  | HttpResponse.status401 _ => (clearToken s, Except.error "Authentication required")
  | HttpResponse.status403 d => (s, Except.error (d.getD "Forbidden"))
  | HttpResponse.statusErr d => (s, Except.error (d.getD "Request failed"))
  | HttpResponse.networkError => (s, Except.error "Network error")

/-! ## Auth service (`frontend/src/services/auth.ts`)

`validateApiKey` installs the trimmed key as the current token and then
issues an authenticated request (`api.getExemptions()`); the outcome of
that request is passed in as the `resp` argument. -/

/-- `validateApiKey`: set the trimmed key as token, fire a request,
return `true` on success and `false` on any thrown error (the token is
whatever the request left behind). -/
def validateApiKey (apiKey : String) (s : ApiState) (resp : HttpResponse) :
    ApiState × Bool :=
  let s1 := setToken s (jsTrim apiKey)
  let p := requestStep s1 resp
  match p.2 with
  | Except.ok _ => (p.1, true)
  | Except.error _ => (p.1, false)

/-- `login`: trim the key, validate it; on success re-install the trimmed
key and return `true`, otherwise return `false`. -/
def login (apiKey : String) (s : ApiState) (resp : HttpResponse) :
    ApiState × Bool :=
  let t := jsTrim apiKey
  let v := validateApiKey t s resp
  if v.2 then (setToken v.1 t, true) else (v.1, false)

/-! ## Duration input (`pages/Login.tsx`, `CreateExemptionModal`)

The duration field's change handler runs
`setDurationMinutes(parseInt(e.target.value) || 60)`. -/

/-- Digit value of a character under a radix, as `parseInt` accepts it
(`0-9`, `a-z`, `A-Z`, valid when below the radix). -/
def charDigit (radix : Nat) (c : Char) : Option Nat :=
  let v :=
    if '0' ≤ c ∧ c ≤ '9' then some (c.toNat - 48)
    else if 'a' ≤ c ∧ c ≤ 'z' then some (c.toNat - 87)
    else if 'A' ≤ c ∧ c ≤ 'Z' then some (c.toNat - 55)
    else none
  match v with
  | some d => if d < radix then some d else none
  | none => none

/-- Value of the longest digit prefix, `none` when it is empty and no
digit has been accumulated yet. -/
def digitsPrefixVal (radix : Nat) (acc : Option Nat) : List Char → Option Nat
  | [] => acc
  | c :: cs =>
    match charDigit radix c with
    | none => acc
    | some d => digitsPrefixVal radix (some ((acc.getD 0) * radix + d)) cs

/-- JS `parseInt(s)` with no radix argument: skip leading whitespace,
read an optional sign, honour a `0x`/`0X` hex prefix, then take the
longest digit prefix; `none` stands for `NaN`. -/
def parseIntJS (s : String) : Option Int :=
  let cs0 := s.data.dropWhile Char.isWhitespace
  let sp : Int × List Char :=
    match cs0 with
    | '-' :: rest => (-1, rest)
    | '+' :: rest => (1, rest)
    | _ => (1, cs0)
  let rp : Nat × List Char :=
    match sp.2 with
    | '0' :: 'x' :: rest => (16, rest)
    | '0' :: 'X' :: rest => (16, rest)
    | _ => (10, sp.2)
  match digitsPrefixVal rp.1 none rp.2 with
  | none => none
  | some n => some (sp.1 * Int.ofNat n)

/-- The duration state after one change event with input `s`:
`parseInt(s) || 60` (both `NaN` and `0` are falsy and fall back to 60). -/
def durationOnChange (s : String) : Int :=
  match parseIntJS s with
  | none => 60
  | some n => if n = 0 then 60 else n

/-! ## Exemption creation form (`pages/Login.tsx`, `CreateExemptionModal.handleSubmit`) -/

structure ExemptionCreateRequest where
  «namespace» : String
  duration_minutes : Int
  reason : String
  approved_by : String
  resource_name : Option String
deriving DecidableEq, Repr

/-- The form's state when submit fires. -/
structure ExemptionForm where
  «namespace» : String
  resourceName : String
  durationMinutes : Int
  reason : String
  approvedBy : String
deriving DecidableEq, Repr

/-- `CreateExemptionModal.handleSubmit`: the validation chain and the
request object it builds.  `resource_name` is spread into the request
only when `resourceName.trim()` is truthy (non-empty). -/
def handleSubmitExemption (f : ExemptionForm) : Except String ExemptionCreateRequest :=
  if jsTrim f.«namespace» = "" then Except.error "Namespace is required"
  else if jsTrim f.reason = "" then Except.error "Reason is required"
  else if jsTrim f.approvedBy = "" then Except.error "Approved by is required"
  else if f.durationMinutes < 1 then Except.error "Duration must be at least 1 minute"
  else Except.ok
    { «namespace» := jsTrim f.«namespace»
      duration_minutes := f.durationMinutes
      reason := jsTrim f.reason
      approved_by := jsTrim f.approvedBy
      resource_name :=
        if jsTrim f.resourceName = "" then none else some (jsTrim f.resourceName) }

/-! ## Date/time parsing for the template form

`ApplyTemplateModal.handleSubmit` builds
`new Date(`${date}T${time}:00`)` from a `type="date"` field
(`YYYY-MM-DD`) and a `type="time"` field (`HH:MM`) and rejects the pair
when the result `isNaN`.  Instants are modelled as minutes on a single
fixed-offset timeline (both endpoints use the same local offset, so
every comparison the code performs is offset-invariant). -/

def isLeap (y : Int) : Bool := (y % 4 == 0 && y % 100 != 0) || y % 400 == 0

def daysInMonth (y m : Int) : Int :=
  if m == 2 then (if isLeap y then 29 else 28)
  else if m == 4 || m == 6 || m == 9 || m == 11 then 30
  else 31

/-- Days since 1970-01-01 of a civil date (standard era-based formula). -/
def daysFromCivil (y m d : Int) : Int :=
  let y2 := if m ≤ 2 then y - 1 else y
  let era := (if 0 ≤ y2 then y2 else y2 - 399) / 400
  let yoe := y2 - era * 400
  let doy := (153 * (m + (if m > 2 then -3 else 9)) + 2) / 5 + d - 1
  let doe := yoe * 365 + yoe / 4 - yoe / 100 + doy
  era * 146097 + doe - 719468

def digitNat (c : Char) : Nat := c.toNat - 48

/-- Parse a date-input value `YYYY-MM-DD`; `none` for anything a JS
`Date` would report as invalid (bad shape, month or day out of range). -/
def parseDate4 (s : String) : Option (Int × Int × Int) :=
  match s.data with
  | [y1, y2, y3, y4, '-', m1, m2, '-', d1, d2] =>
    if [y1, y2, y3, y4, m1, m2, d1, d2].all Char.isDigit then
      let y : Int := Int.ofNat (digitNat y1 * 1000 + digitNat y2 * 100 + digitNat y3 * 10 + digitNat y4)
      let m : Int := Int.ofNat (digitNat m1 * 10 + digitNat m2)
      let d : Int := Int.ofNat (digitNat d1 * 10 + digitNat d2)
      if 1 ≤ m ∧ m ≤ 12 ∧ 1 ≤ d ∧ d ≤ daysInMonth y m then some (y, m, d) else none
    else none
  | _ => none

/-- Parse a time-input value `HH:MM`. -/
def parseTimeHM (s : String) : Option (Int × Int) :=
  match s.data with
  | [h1, h2, ':', n1, n2] =>
    if [h1, h2, n1, n2].all Char.isDigit then
      let h : Int := Int.ofNat (digitNat h1 * 10 + digitNat h2)
      let n : Int := Int.ofNat (digitNat n1 * 10 + digitNat n2)
      if h ≤ 23 ∧ n ≤ 59 then some (h, n) else none
    else none
  | _ => none

/-- `new Date(`${d}T${t}:00`)` as minutes, `none` when `isNaN`. -/
def parseLocalDT (d t : String) : Option Int :=
  match parseDate4 d, parseTimeHM t with
  | some (y, m, dd), some (hh, mi) => some (daysFromCivil y m dd * 1440 + hh * 60 + mi)
  | _, _ => none

/-! ## Template / schedule creation form (`pages/Login.tsx`, `ApplyTemplateModal.handleSubmit`) -/

/-- The `Schedule` object the form sends (`start`/`end` hold the
instants whose ISO strings the code serializes). -/
structure Schedule where
  name : String
  start : Option Int
  «end» : Option Int
  cron : Option String
  namespaces : Option (List String)
  message : Option String
deriving DecidableEq, Repr

/-- The form's state when submit fires. -/
structure TemplateForm where
  scheduleName : String
  startDate : String
  startTime : String
  endDate : String
  endTime : String
  cron : String
  namespaces : List String
  message : String
deriving DecidableEq, Repr

/-- `ApplyTemplateModal.handleSubmit`: presence checks on the date and
time fields, `isNaN` checks on the built `Date`s, the
`endDateTime <= startDateTime` rejection, the mandatory cron, and the
schedule object sent to the backend. -/
def handleSubmitTemplate (f : TemplateForm) : Except String Schedule :=
  if f.startDate = "" ∨ f.startTime = "" then Except.error "Start date and time are required"
  else if f.endDate = "" ∨ f.endTime = "" then Except.error "End date and time are required"
  else
    match parseLocalDT f.startDate f.startTime, parseLocalDT f.endDate f.endTime with
    | none, _ => Except.error "Invalid start date/time values"
    | some _, none => Except.error "Invalid end date/time values"
    | some a, some b =>
      if b ≤ a then Except.error "End date/time must be after start date/time"
      else if f.cron = "" then Except.error "Cron expression is required"
      else Except.ok
        { name := f.scheduleName
          start := some a
          «end» := some b
          cron := some f.cron
          namespaces := if f.namespaces.length > 0 then some f.namespaces else none
          message := if f.message = "" then none else some f.message }

/-! ## Exemption status display (`pages/Login.tsx`, `Exemptions`)

The table's Status cell renders
`used ? 'Used' : new Date(expires_at) > new Date() ? 'Active' : 'Expired'`. -/

def exemptionStatus (used : Bool) (expires_at now : Int) : String :=
  if used then "Used" else if now < expires_at then "Active" else "Expired"

/-! ## Exemption store (spec §4.4; backend code absent from the repository) -/

/-- Modelled from the spec: the backend Exemption record (§3); the
backend source is not in the repository, only the UI that displays and
creates exemptions.  `resource_name` absent means namespace-wide. -/
structure Exemption where
  id : String
  «namespace» : String
  resource_name : Option String
  duration_minutes : Int
  reason : String
  approved_by : String
  created_at : Int
  expires_at : Int
  used : Bool
deriving DecidableEq, Repr

/-- Modelled from the spec: the matcher's per-record test (§4.4) —
non-expired (`expires_at > now`), same namespace, and either
namespace-wide or the requested resource with the single-use flag still
clear. -/
def matchOne (now : Int) (ns : String) (rn : Option String) (e : Exemption) : Bool :=
  decide (now < e.expires_at) && e.«namespace» == ns &&
    (match e.resource_name with
     | none => true
     | some r => rn == some r && !e.used)

/-- Modelled from the spec: a specific-resource match is marked
`used := true`; a namespace-wide match is left reusable. -/
def markMatched (e : Exemption) : Exemption :=
  if e.resource_name.isSome then { e with used := true } else e

/-- Modelled from the spec: `matches(namespace, resourceName?, now)` —
return the first record passing `matchOne` and the store with that
record marked, in one step (§4.4, §9). -/
def storeMatches : List Exemption → String → Option String → Int →
    Option Exemption × List Exemption
  | [], _, _, _ => (none, [])
  | e :: rest, ns, rn, now =>
    if matchOne now ns rn e then
      (some e, markMatched e :: rest)
    else
      let p := storeMatches rest ns rn now
      (p.1, e :: p.2)

/-- One match query against the store. -/
structure MatchQuery where
  ns : String
  rn : Option String
  now : Int
deriving DecidableEq, Repr

/-- Run a sequence of match queries, threading the store. -/
def runQueries : List Exemption → List MatchQuery →
    List (Option Exemption) × List Exemption
  | s, [] => ([], s)
  | s, q :: qs =>
    let p := storeMatches s q.ns q.rn q.now
    let rest := runQueries p.2 qs
    (p.1 :: rest.1, rest.2)

/-- Does a query result return the resource-specific exemption `i`? -/
def isSpecificHit (i : String) : Option Exemption → Bool
  | some e => e.id == i && e.resource_name.isSome
  | none => false

/-- How many queries of a run returned the resource-specific exemption
`i`. -/
def countHits (i : String) (rs : List (Option Exemption)) : Nat :=
  (rs.filter (isSpecificHit i)).length

/-- Every resource-specific record with id `i` in the store is already
marked used. -/
def UsedAt (s : List Exemption) (i : String) : Prop :=
  ∀ e ∈ s, e.id = i → e.resource_name.isSome → e.used = true

/-! ## Policy evaluator (spec §4.7; backend code absent from the repository) -/

inductive Operation where
  | CREATE | UPDATE | DELETE | CONNECT
deriving DecidableEq, Repr

inductive Category where
  | NOT_MONITORED | BYPASS_ANNOTATION | BYPASS_USER | BYPASS_NAMESPACE
  | BYPASS_EXEMPTION | FROZEN | NO_FREEZE
deriving DecidableEq, Repr

/-- Modelled from the spec: the evaluator's input (§4.7). -/
structure AdmissionRequest where
  kind : String
  «namespace» : String
  resourceName : Option String
  user : String
  groups : List String
  annotations : List (String × String)
  operation : Operation
deriving DecidableEq, Repr

/-- Modelled from the spec: the policy configuration snapshot (§3). -/
structure Config where
  freeze_enabled : Bool
  freeze_until : Option Int
  freeze_message : String
  bypass_annotation_key : String
  bypass_allowed_users : List String
  bypass_exempt_namespaces : List String
  monitored_kinds : List String
  fail_closed : Bool
deriving DecidableEq, Repr

structure Decision where
  allow : Bool
  reason : String
  category : Category
deriving DecidableEq, Repr

/-- Value of an annotation key on the request. -/
def annotationValue (l : List (String × String)) (key : String) : Option String :=
  (l.find? (fun p => p.1 == key)).map (fun p => p.2)

/-- ASCII lower-casing of one character. -/
def lowerChar (c : Char) : Char :=
  if 'A' ≤ c ∧ c ≤ 'Z' then Char.ofNat (c.toNat + 32) else c

/-- ASCII lower-casing of a string (the case-insensitive `"true"` test
only involves ASCII). -/
def lowerString (s : String) : String :=
  String.mk (s.data.map lowerChar)

/-- A truthy bypass-annotation value: `"true"`, case-insensitive. -/
def truthy : Option String → Bool
  | some v => lowerString v == "true"
  | none => false

/-- Modelled from the spec: the policy evaluator's decision procedure
(§4.7) — the eight strictly ordered steps, the first that fires being
terminal.  The schedule engine is passed as the `isActive` oracle
(quantifying over it ranges over every schedule state); the exemption
store is the modelled `storeMatches`, whose updated state is returned
alongside the decision. -/
def evaluate (cfg : Config) (isActive : Int → String → Bool)
    (store : List Exemption) (now : Int) (r : AdmissionRequest) :
    Decision × List Exemption :=
  if !(cfg.monitored_kinds.contains r.kind) then
    ({ allow := true, reason := "kind is not monitored", category := Category.NOT_MONITORED }, store)
  else if r.operation ≠ Operation.CREATE ∧ r.operation ≠ Operation.UPDATE then
    ({ allow := true, reason := "operation is not inspected", category := Category.NOT_MONITORED }, store)
  else if truthy (annotationValue r.annotations cfg.bypass_annotation_key) then
    ({ allow := true
       reason := (annotationValue r.annotations "admission-controller.io/emergency-reason").getD "emergency bypass"
       category := Category.BYPASS_ANNOTATION }, store)
  else if cfg.bypass_allowed_users.contains r.user
      || r.groups.any (fun g => cfg.bypass_allowed_users.contains g) then
    ({ allow := true, reason := "user is allowlisted", category := Category.BYPASS_USER }, store)
  else if cfg.bypass_exempt_namespaces.contains r.«namespace» then
    ({ allow := true, reason := "namespace is exempt", category := Category.BYPASS_NAMESPACE }, store)
  else
    let p := storeMatches store r.«namespace» r.resourceName now
    match p.1 with
    | some e => ({ allow := true, reason := e.reason, category := Category.BYPASS_EXEMPTION }, p.2)
    | none =>
      if isActive now r.«namespace» then
        ({ allow := false, reason := cfg.freeze_message, category := Category.FROZEN }, p.2)
      else
        ({ allow := true, reason := "no freeze active", category := Category.NO_FREEZE }, p.2)

/-! ## Store lemmas -/

theorem markMatched_id (e : Exemption) : (markMatched e).id = e.id := by
  unfold markMatched
  split <;> rfl

theorem markMatched_rname (e : Exemption) :
    (markMatched e).resource_name = e.resource_name := by
  unfold markMatched
  split <;> rfl

theorem markMatched_used_of_some (e : Exemption) (h : e.resource_name.isSome) :
    (markMatched e).used = true := by
  unfold markMatched
  simp [h]

theorem markMatched_used_mono (e : Exemption) (h : e.used = true) :
    (markMatched e).used = true := by
  unfold markMatched
  split <;> simp [h]

theorem storeMatches_ids (s : List Exemption) (ns : String) (rn : Option String) (now : Int) :
    ((storeMatches s ns rn now).2).map Exemption.id = s.map Exemption.id := by
  induction s with
  | nil => simp [storeMatches]
  | cons e rest ih =>
    simp only [storeMatches]
    by_cases h : matchOne now ns rn e
    · simp [h, markMatched_id]
    · simp [h, ih]

theorem storeMatches_mem (s : List Exemption) (ns : String) (rn : Option String) (now : Int)
    (e : Exemption) (h : (storeMatches s ns rn now).1 = some e) : e ∈ s := by
  induction s with
  | nil => simp [storeMatches] at h
  | cons x rest ih =>
    simp only [storeMatches] at h
    by_cases hm : matchOne now ns rn x
    · simp [hm] at h
      simp [h]
    · simp [hm] at h
      exact List.mem_cons_of_mem x (ih h)

theorem usedAt_preserved (s : List Exemption) (ns : String) (rn : Option String) (now : Int)
    (i : String) (h : UsedAt s i) : UsedAt ((storeMatches s ns rn now).2) i := by
  induction s with
  | nil => simp [storeMatches, UsedAt]
  | cons e rest ih =>
    have hhead : e.id = i → e.resource_name.isSome → e.used = true :=
      fun h1 h2 => h e (List.mem_cons_self e rest) h1 h2
    have htail : UsedAt rest i :=
      fun x hx h1 h2 => h x (List.mem_cons_of_mem e hx) h1 h2
    simp only [storeMatches]
    by_cases hm : matchOne now ns rn e
    · simp only [hm, if_pos]
      intro x hx h1 h2
      rcases List.mem_cons.mp hx with hx | hx
      · subst hx
        exact markMatched_used_of_some e (by rwa [markMatched_rname] at h2)
      · exact htail x hx h1 h2
    · simp only [hm, if_neg, Bool.false_eq_true, not_false_eq_true]
      intro x hx h1 h2
      rcases List.mem_cons.mp hx with hx | hx
      · subst hx
        exact hhead h1 h2
      · exact ih htail x hx h1 h2

theorem no_hit_of_usedAt (s : List Exemption) (ns : String) (rn : Option String) (now : Int)
    (i : String) (h : UsedAt s i) :
    isSpecificHit i ((storeMatches s ns rn now).1) = false := by
  induction s with
  | nil => simp [storeMatches, isSpecificHit]
  | cons e rest ih =>
    have hhead : e.id = i → e.resource_name.isSome → e.used = true :=
      fun h1 h2 => h e (List.mem_cons_self e rest) h1 h2
    have htail : UsedAt rest i :=
      fun x hx h1 h2 => h x (List.mem_cons_of_mem e hx) h1 h2
    simp only [storeMatches]
    by_cases hm : matchOne now ns rn e
    · simp only [hm, if_pos]
      rcases hrn : e.resource_name with _ | r
      · simp [isSpecificHit, hrn]
      · by_cases hid : e.id = i
        · have hused : e.used = true := hhead hid (by simp [hrn])
          exfalso
          simp [matchOne, hrn, hused] at hm
        · simp [isSpecificHit, hid]
    · simp only [hm, if_neg, Bool.false_eq_true, not_false_eq_true]
      exact ih htail

theorem usedAt_after_hit (s : List Exemption) (ns : String) (rn : Option String) (now : Int)
    (i : String) (hnd : (s.map Exemption.id).Nodup)
    (h : isSpecificHit i ((storeMatches s ns rn now).1) = true) :
    UsedAt ((storeMatches s ns rn now).2) i := by
  induction s with
  | nil => simp [storeMatches, isSpecificHit] at h
  | cons e rest ih =>
    have hnd' : (rest.map Exemption.id).Nodup := (List.nodup_cons.mp (by simpa using hnd)).2
    have hnotin : e.id ∉ rest.map Exemption.id := (List.nodup_cons.mp (by simpa using hnd)).1
    simp only [storeMatches] at h ⊢
    by_cases hm : matchOne now ns rn e
    · simp only [hm, if_pos] at h ⊢
      have hid : e.id = i ∧ e.resource_name.isSome = true := by
        simpa [isSpecificHit] using h
      intro x hx h1 h2
      rcases List.mem_cons.mp hx with hx | hx
      · subst hx
        exact markMatched_used_of_some e hid.2
      · exfalso
        exact hnotin (hid.1 ▸ h1 ▸ List.mem_map_of_mem Exemption.id hx)
    · simp only [hm, if_neg, Bool.false_eq_true, not_false_eq_true] at h ⊢
      rcases hres : (storeMatches rest ns rn now).1 with _ | e'
      · rw [hres] at h
        simp [isSpecificHit] at h
      · have hih : isSpecificHit i ((storeMatches rest ns rn now).1) = true := by
          rw [hres] at h ⊢
          exact h
        have he'id : e'.id = i := by
          rw [hres] at h
          exact (by simpa [isSpecificHit] using h : e'.id = i ∧ e'.resource_name.isSome = true).1
        have he'mem : e' ∈ rest := storeMatches_mem rest ns rn now e' hres
        intro x hx h1 h2
        rcases List.mem_cons.mp hx with hx | hx
        · exfalso
          subst hx
          exact hnotin (h1 ▸ he'id ▸ List.mem_map_of_mem Exemption.id he'mem)
        · exact ih hnd' hih x hx h1 h2

theorem countHits_nil (i : String) : countHits i [] = 0 := rfl

theorem countHits_cons (i : String) (r : Option Exemption) (rs : List (Option Exemption)) :
    countHits i (r :: rs) =
      (if isSpecificHit i r then 1 else 0) + countHits i rs := by
  by_cases h : isSpecificHit i r
  · simp [countHits, List.filter_cons, h, Nat.add_comm]
  · simp [countHits, List.filter_cons, h]

theorem countHits_zero_of_usedAt (qs : List MatchQuery) (s : List Exemption) (i : String)
    (h : UsedAt s i) : countHits i ((runQueries s qs).1) = 0 := by
  induction qs generalizing s with
  | nil => simp [runQueries, countHits_nil]
  | cons q qs ih =>
    simp only [runQueries]
    rw [countHits_cons]
    rw [no_hit_of_usedAt s q.ns q.rn q.now i h]
    simp only [if_neg (by simp : ¬(false = true)), Nat.zero_add]
    exact ih _ (usedAt_preserved s q.ns q.rn q.now i h)

/-- If both components of a form date/time pair parse, neither field was
empty (the form's presence guards pass). -/
theorem parseLocalDT_nonempty (d t : String) (v : Int) (h : parseLocalDT d t = some v) :
    d ≠ "" ∧ t ≠ "" := by
  unfold parseLocalDT at h
  constructor
  · intro he
    subst he
    simp [parseDate4] at h
  · intro he
    subst he
    simp [parseTimeHM] at h

/-! ## Concrete instances used by witnesses -/

def exWit : Exemption :=
  { id := "ex-1", «namespace» := "prod", resource_name := some "web"
    duration_minutes := 60, reason := "hotfix", approved_by := "admin"
    created_at := 0, expires_at := 60, used := false }

def exFormNoReason : ExemptionForm :=
  { «namespace» := "prod", resourceName := "", durationMinutes := 60
    reason := "", approvedBy := "admin" }

def exFormOk : ExemptionForm :=
  { «namespace» := "prod", resourceName := " web ", durationMinutes := 30
    reason := "patch", approvedBy := "admin" }

def tmplFormOk : TemplateForm :=
  { scheduleName := "night freeze", startDate := "2025-12-24", startTime := "00:00"
    endDate := "2025-12-26", endTime := "23:59", cron := "0 22 * * *"
    namespaces := ["prod"], message := "holiday freeze" }

def tmplFormRev : TemplateForm :=
  { scheduleName := "night freeze", startDate := "2025-12-26", startTime := "23:59"
    endDate := "2025-12-24", endTime := "00:00", cron := "0 22 * * *"
    namespaces := ["prod"], message := "holiday freeze" }

def tmplFormNoCron : TemplateForm :=
  { scheduleName := "winter", startDate := "2025-12-24", startTime := "00:00"
    endDate := "2025-12-26", endTime := "23:59", cron := ""
    namespaces := [], message := "" }

def schedWit : Schedule :=
  { name := "night freeze", start := some 29442240, «end» := some 29446559
    cron := some "0 22 * * *", namespaces := some ["prod"], message := some "holiday freeze" }

def cfgWit : Config :=
  { freeze_enabled := true, freeze_until := none, freeze_message := "frozen"
    bypass_annotation_key := "admission-controller.io/emergency-bypass"
    bypass_allowed_users := [], bypass_exempt_namespaces := []
    monitored_kinds := ["Deployment"], fail_closed := true }

def reqWit : AdmissionRequest :=
  { kind := "Deployment", «namespace» := "prod", resourceName := some "web"
    user := "alice", groups := []
    annotations := [("admission-controller.io/emergency-bypass", "true")]
    operation := Operation.CREATE }

/-! ## Claim theorems -/

/-- C1: the evaluator's steps are strictly ordered; when the annotation
bypass fires (monitored kind, inspected operation, truthy bypass
annotation), the decision is allow with category `BYPASS_ANNOTATION`,
for every schedule-engine state (`isActive` oracle), exemption store,
user allowlist and namespace-exemption configuration. -/
theorem bypass_annotation_wins (cfg : Config) (isActive : Int → String → Bool)
    (store : List Exemption) (now : Int) (r : AdmissionRequest)
    (hkind : cfg.monitored_kinds.contains r.kind = true)
    (hop : r.operation = Operation.CREATE ∨ r.operation = Operation.UPDATE)
    (hann : truthy (annotationValue r.annotations cfg.bypass_annotation_key) = true) :
    (evaluate cfg isActive store now r).1.allow = true ∧
    (evaluate cfg isActive store now r).1.category = Category.BYPASS_ANNOTATION := by
  unfold evaluate
  have h1 : ¬((!(cfg.monitored_kinds.contains r.kind)) = true) := by
    rw [hkind]
    decide
  have h2 : ¬(r.operation ≠ Operation.CREATE ∧ r.operation ≠ Operation.UPDATE) := by
    rcases hop with h | h <;> simp [h]
  rw [if_neg h1, if_neg h2, if_pos hann]
  exact ⟨rfl, rfl⟩

/-- C1 witness: a concrete bypass-annotated request is allowed even when
every schedule reports active. -/
theorem bypass_annotation_wins_witness :
    (evaluate cfgWit (fun _ _ => true) [] 0 reqWit).1.allow = true ∧
    (evaluate cfgWit (fun _ _ => true) [] 0 reqWit).1.category = Category.BYPASS_ANNOTATION :=
  bypass_annotation_wins cfgWit (fun _ _ => true) [] 0 reqWit (by decide) (Or.inl rfl) (by decide)

/-- C2 counterexample: a creation attempt with a non-empty namespace and
a positive duration still fails, because the form also requires a
non-empty reason. -/
theorem exemption_create_requires_reason_cex :
    handleSubmitExemption exFormNoReason = Except.error "Reason is required" ∧
    jsTrim exFormNoReason.«namespace» ≠ "" ∧ 1 ≤ exFormNoReason.durationMinutes :=
  ⟨rfl, by decide, by decide⟩

/-- C2 amended: exemption creation succeeds exactly when the trimmed
namespace, reason and approved-by fields are all non-empty and the
duration is at least 1. -/
theorem exemption_create_ok_iff (f : ExemptionForm) :
    (handleSubmitExemption f).isOk = true ↔
      (jsTrim f.«namespace» ≠ "" ∧ jsTrim f.reason ≠ "" ∧
        jsTrim f.approvedBy ≠ "" ∧ 1 ≤ f.durationMinutes) := by
  unfold handleSubmitExemption
  by_cases h1 : jsTrim f.«namespace» = ""
  · rw [if_pos h1]
    simp [Except.isOk, Except.toBool, h1]
  rw [if_neg h1]
  by_cases h2 : jsTrim f.reason = ""
  · rw [if_pos h2]
    simp [Except.isOk, Except.toBool, h2]
  rw [if_neg h2]
  by_cases h3 : jsTrim f.approvedBy = ""
  · rw [if_pos h3]
    simp [Except.isOk, Except.toBool, h3]
  rw [if_neg h3]
  by_cases h4 : f.durationMinutes < 1
  · rw [if_pos h4]
    simp [Except.isOk, Except.toBool, h1, h2, h3]
    omega
  · rw [if_neg h4]
    simp [Except.isOk, Except.toBool, h1, h2, h3]
    omega

/-- C2 witness: a fully filled form is accepted. -/
theorem exemption_create_ok_iff_witness :
    (handleSubmitExemption exFormOk).isOk = true :=
  (exemption_create_ok_iff exFormOk).mpr (by decide)

/-- C3 counterexample: the absolute-instants-only shape (no cron) is
rejected by the creation path. -/
theorem schedule_absolute_only_rejected_cex :
    handleSubmitTemplate tmplFormNoCron = Except.error "Cron expression is required" :=
  rfl

/-- C3 amended: the creation path accepts only the combined shape —
every accepted schedule carries start, end and a non-empty cron; an
attempt with no cron, or with a missing start or end date, fails. -/
theorem schedule_creation_combined_only (f : TemplateForm) :
    (∀ s : Schedule, handleSubmitTemplate f = Except.ok s →
        s.start.isSome = true ∧ s.«end».isSome = true ∧ ∃ c, s.cron = some c ∧ c ≠ "") ∧
    (f.cron = "" → (handleSubmitTemplate f).isOk = false) ∧
    (f.startDate = "" → (handleSubmitTemplate f).isOk = false) ∧
    (f.endDate = "" → (handleSubmitTemplate f).isOk = false) := by
  refine ⟨?_, ?_, ?_, ?_⟩
  · intro s h
    unfold handleSubmitTemplate at h
    split at h
    · exact Except.noConfusion h
    split at h
    · exact Except.noConfusion h
    split at h
    · exact Except.noConfusion h
    · exact Except.noConfusion h
    split at h
    · exact Except.noConfusion h
    split at h
    · exact Except.noConfusion h
    rename_i hcron
    have hr := Except.ok.inj h
    rw [← hr]
    exact ⟨rfl, rfl, f.cron, rfl, hcron⟩
  · intro hc
    unfold handleSubmitTemplate
    repeat' split
    all_goals simp_all [Except.isOk, Except.toBool]
  · intro hd
    unfold handleSubmitTemplate
    rw [if_pos (Or.inl hd)]
    rfl
  · intro hd
    unfold handleSubmitTemplate
    by_cases h1 : f.startDate = "" ∨ f.startTime = ""
    · rw [if_pos h1]
      rfl
    · rw [if_neg h1, if_pos (Or.inl hd)]
      rfl

/-- C3 witness: the combined shape is accepted with all three parts
present, and the cron-less attempt fails. -/
theorem schedule_creation_combined_only_witness :
    (schedWit.start.isSome = true ∧ schedWit.«end».isSome = true ∧
      ∃ c, schedWit.cron = some c ∧ c ≠ "") ∧
    (handleSubmitTemplate tmplFormNoCron).isOk = false :=
  ⟨(schedule_creation_combined_only tmplFormOk).1 schedWit rfl,
   (schedule_creation_combined_only tmplFormNoCron).2.1 rfl⟩

/-- C4: single use — over any sequence of match queries against a store
whose ids are distinct, a resource-specific exemption is returned at
most once. -/
theorem exemption_single_use (s : List Exemption) (i : String) (qs : List MatchQuery)
    (hnd : (s.map Exemption.id).Nodup) :
    countHits i ((runQueries s qs).1) ≤ 1 := by
  induction qs generalizing s with
  | nil => simp [runQueries, countHits_nil]
  | cons q qs ih =>
    simp only [runQueries]
    rw [countHits_cons]
    by_cases hhit : isSpecificHit i ((storeMatches s q.ns q.rn q.now).1) = true
    · rw [hhit]
      have h0 := countHits_zero_of_usedAt qs ((storeMatches s q.ns q.rn q.now).2) i
        (usedAt_after_hit s q.ns q.rn q.now i hnd hhit)
      simp [h0]
    · have hf : isSpecificHit i ((storeMatches s q.ns q.rn q.now).1) = false := by
        simpa using hhit
      rw [hf]
      have hnd' : (((storeMatches s q.ns q.rn q.now).2).map Exemption.id).Nodup := by
        rw [storeMatches_ids]
        exact hnd
      simpa using ih ((storeMatches s q.ns q.rn q.now).2) hnd'

/-- C4 witness: two identical queries against a one-exemption store
return the resource-specific exemption exactly once. -/
theorem exemption_single_use_witness :
    countHits "ex-1"
      ((runQueries [exWit] [⟨"prod", some "web", 10⟩, ⟨"prod", some "web", 11⟩]).1) ≤ 1 :=
  exemption_single_use [exWit] "ex-1" [⟨"prod", some "web", 10⟩, ⟨"prod", some "web", 11⟩]
    (by decide)

/-- C5: expiration — a matched exemption always has `expires_at > now`,
and the UI classifies an exemption `Active` exactly when it is unused
and its expiry is strictly in the future. -/
theorem exemption_expiration :
    (∀ (s : List Exemption) (ns : String) (rn : Option String) (now : Int) (e : Exemption),
        (storeMatches s ns rn now).1 = some e → now < e.expires_at) ∧
    (∀ (u : Bool) (ea now : Int),
        exemptionStatus u ea now = "Active" ↔ (u = false ∧ now < ea)) := by
  constructor
  · intro s ns rn now e h
    induction s with
    | nil => simp [storeMatches] at h
    | cons x rest ih =>
      simp only [storeMatches] at h
      by_cases hm : matchOne now ns rn x
      · simp only [hm, if_pos] at h
        have hx : x = e := by simpa using h
        subst hx
        have := hm
        simp only [matchOne, Bool.and_eq_true, decide_eq_true_eq] at this
        exact this.1.1
      · simp only [hm, if_neg, Bool.false_eq_true, not_false_eq_true] at h
        exact ih h
  · intro u ea now
    unfold exemptionStatus
    rcases u with _ | _
    · by_cases hlt : now < ea
      · rw [if_neg (by decide : ¬(false = true)), if_pos hlt]
        simp [hlt]
      · rw [if_neg (by decide : ¬(false = true)), if_neg hlt]
        constructor
        · intro h
          exact absurd h (by decide)
        · rintro ⟨_, h⟩
          exact absurd h hlt
    · rw [if_pos rfl]
      constructor
      · intro h
        exact absurd h (by decide)
      · rintro ⟨h, _⟩
        exact Bool.noConfusion h

/-- C5 witness: the concrete store match is non-expired, and a live
unused exemption displays as Active. -/
theorem exemption_expiration_witness :
    (10 : Int) < exWit.expires_at ∧ exemptionStatus false 60 10 = "Active" :=
  ⟨exemption_expiration.1 [exWit] "prod" (some "web") 10 exWit (by decide),
   (exemption_expiration.2 false 60 10).mpr (by decide)⟩

/-- C6: every schedule accepted by the creation path has both instants
with `end > start`, and an attempt whose end instant is not after its
start instant is rejected. -/
theorem schedule_window_invariant (f : TemplateForm) :
    (∀ s : Schedule, handleSubmitTemplate f = Except.ok s →
        ∃ a b, s.start = some a ∧ s.«end» = some b ∧ a < b) ∧
    (∀ a b : Int, parseLocalDT f.startDate f.startTime = some a →
        parseLocalDT f.endDate f.endTime = some b → b ≤ a →
        (handleSubmitTemplate f).isOk = false) := by
  constructor
  · intro s h
    unfold handleSubmitTemplate at h
    split at h
    · exact Except.noConfusion h
    split at h
    · exact Except.noConfusion h
    split at h
    · exact Except.noConfusion h
    · exact Except.noConfusion h
    rename_i a b _ _
    split at h
    · exact Except.noConfusion h
    rename_i hba
    split at h
    · exact Except.noConfusion h
    have hr := Except.ok.inj h
    rw [← hr]
    exact ⟨a, b, rfl, rfl, by omega⟩
  · intro a b ha hb hba
    have hne1 := parseLocalDT_nonempty _ _ _ ha
    have hne2 := parseLocalDT_nonempty _ _ _ hb
    unfold handleSubmitTemplate
    rw [if_neg (by tauto : ¬(f.startDate = "" ∨ f.startTime = ""))]
    rw [if_neg (by tauto : ¬(f.endDate = "" ∨ f.endTime = ""))]
    rw [ha, hb]
    simp [hba, Except.isOk, Except.toBool]

/-- C6 witness: a well-ordered form is accepted with `start < end`, and
the reversed form is rejected. -/
theorem schedule_window_invariant_witness :
    (∃ a b, schedWit.start = some a ∧ schedWit.«end» = some b ∧ a < b) ∧
    (handleSubmitTemplate tmplFormRev).isOk = false :=
  ⟨(schedule_window_invariant tmplFormOk).1 schedWit rfl,
   (schedule_window_invariant tmplFormRev).2 29446559 29442240 (by decide) (by decide) (by decide)⟩

/-- C7: the created request carries `resource_name` exactly when the
entered resource name is non-empty after trimming, with the trimmed
value; otherwise the field is omitted. -/
theorem resource_name_iff_nonempty (f : ExemptionForm) (r : ExemptionCreateRequest)
    (h : handleSubmitExemption f = Except.ok r) :
    r.resource_name =
      (if jsTrim f.resourceName = "" then none else some (jsTrim f.resourceName)) := by
  unfold handleSubmitExemption at h
  by_cases h1 : jsTrim f.«namespace» = ""
  · rw [if_pos h1] at h
    exact Except.noConfusion h
  rw [if_neg h1] at h
  by_cases h2 : jsTrim f.reason = ""
  · rw [if_pos h2] at h
    exact Except.noConfusion h
  rw [if_neg h2] at h
  by_cases h3 : jsTrim f.approvedBy = ""
  · rw [if_pos h3] at h
    exact Except.noConfusion h
  rw [if_neg h3] at h
  by_cases h4 : f.durationMinutes < 1
  · rw [if_pos h4] at h
    exact Except.noConfusion h
  rw [if_neg h4] at h
  have hr := Except.ok.inj h
  rw [← hr]

/-- C7 witness: a whitespace-padded resource name is stored trimmed. -/
theorem resource_name_iff_nonempty_witness :
    ({ «namespace» := "prod", duration_minutes := 30, reason := "patch"
       approved_by := "admin", resource_name := some "web" } : ExemptionCreateRequest).resource_name
      = (if jsTrim exFormOk.resourceName = "" then none else some (jsTrim exFormOk.resourceName)) :=
  resource_name_iff_nonempty exFormOk _ rfl

/-- C8 counterexample: a login whose validation request fails with a 401
response leaves no stored token, and `isAuthenticated()` is false. -/
theorem login_401_clears_token_cex :
    (login "mykey" { token := none } (HttpResponse.status401 "{}")).2 = false ∧
    (login "mykey" { token := none } (HttpResponse.status401 "{}")).1.token = none ∧
    isAuthenticatedApi (login "mykey" { token := none } (HttpResponse.status401 "{}")).1 = false := by
  decide

/-- C8 amended: for a key with a non-empty trimmed form whose validation
request fails with anything other than a 401 response, login returns
false while the trimmed key stays stored, so `isAuthenticated()` is
true; a 401 failure instead clears the token (see the counterexample). -/
theorem login_failure_non401_keeps_token (k : String) (s : ApiState) (resp : HttpResponse)
    (hk : jsTrim k ≠ "")
    (hsucc : ∀ b, resp ≠ HttpResponse.success b)
    (h401 : ∀ b, resp ≠ HttpResponse.status401 b) :
    (login k s resp).2 = false ∧
    (login k s resp).1.token = some (jsTrim k) ∧
    isAuthenticatedApi (login k s resp).1 = true := by
  cases resp with
  | success b => exact absurd rfl (hsucc b)
  | status401 b => exact absurd rfl (h401 b)
  | status403 d =>
    simp [login, validateApiKey, requestStep, setToken, jsTrim_idem,
      isAuthenticatedApi, getTokenModel, hk]
  | statusErr d =>
    simp [login, validateApiKey, requestStep, setToken, jsTrim_idem,
      isAuthenticatedApi, getTokenModel, hk]
  | networkError =>
    simp [login, validateApiKey, requestStep, setToken, jsTrim_idem,
      isAuthenticatedApi, getTokenModel, hk]

/-- C8 witness: a network failure during validation leaves the trimmed
key installed and the client authenticated. -/
theorem login_failure_non401_keeps_token_witness :
    (login "mykey" { token := none } HttpResponse.networkError).2 = false ∧
    (login "mykey" { token := none } HttpResponse.networkError).1.token = some (jsTrim "mykey") ∧
    isAuthenticatedApi (login "mykey" { token := none } HttpResponse.networkError).1 = true :=
  login_failure_non401_keeps_token "mykey" { token := none } HttpResponse.networkError
    (by decide) (fun b h => HttpResponse.noConfusion h) (fun b h => HttpResponse.noConfusion h)

/-- C9: a 401 response clears the stored token and throws
`Authentication required`, for every response body (the body is never
consulted), and the cleared state is unauthenticated. -/
theorem request_401_clears_and_throws (s : ApiState) (b : String) :
    requestStep s (HttpResponse.status401 b) =
      ({ token := none }, Except.error "Authentication required") ∧
    isAuthenticatedApi { token := none } = false :=
  ⟨rfl, rfl⟩

/-- C10: the duration state is never 0 — a 0 or NaN parse falls back to
60 — so the duration validation can fail only on a negative parsed
input. -/
theorem duration_never_zero (s : String) :
    durationOnChange s ≠ 0 ∧
    ((parseIntJS s = none ∨ parseIntJS s = some 0) → durationOnChange s = 60) ∧
    (durationOnChange s < 1 → ∃ n, parseIntJS s = some n ∧ n < 0 ∧ durationOnChange s = n) := by
  unfold durationOnChange
  rcases h : parseIntJS s with _ | n
  · simp
  · by_cases hz : n = 0
    · subst hz
      simp
    · simp only [hz, if_neg, if_false]
      refine ⟨hz, ?_, ?_⟩
      · rintro (hc | hc)
        · exact Option.noConfusion hc
        · exact absurd (Option.some.inj hc) hz
      · intro hlt
        exact ⟨n, rfl, by omega, rfl⟩

/-- C10 witness: the input `-5` yields a negative duration below 1. -/
theorem duration_never_zero_witness :
    durationOnChange "-5" < 1 ∧
    (∃ n, parseIntJS "-5" = some n ∧ n < 0 ∧ durationOnChange "-5" = n) :=
  ⟨by decide, (duration_never_zero "-5").2.2 (by decide)⟩

end KubeFreezer
